import Mathlib

/-!
Verification development for the SQL access-control and sensitive-data-redaction
engine of the mysql-mcp-server-sse repository.

The definitions below are a shallow embedding of the Python sources:
src/security/database_scope_checker.py and src/tools/mysql_info_tool.py.
Python strings are modelled as Lean strings; the fixed lexical regular-expression
patterns of the source are hand-compiled into specialised scanners over lists of
characters, with Python's re module semantics (word boundaries, greedy
character-class runs, non-overlapping left-to-right finditer scanning) made
explicit.  ASCII semantics are used for case conversion and character classes,
matching the ASCII-only identifier grammar of the source patterns.
-/

namespace MySqlScope

/-- Python regular-expression whitespace class (ASCII part), the set matched by
the backslash-s class and stripped by str.strip. -/
def isPySpace (c : Char) : Bool :=
  c = ' ' || c = '\t' || c = '\n' || c = '\r' || c = '\x0b' || c = '\x0c'

/-- ASCII word character, the class used for word boundaries in the source
patterns: letters, digits and underscore. -/
def isWordChar (c : Char) : Bool :=
  c.isAlpha || c.isDigit || c = '_'

/-- First character of the identifier grammar of the source: a letter or
underscore. -/
def isIdentStart (c : Char) : Bool :=
  c.isAlpha || c = '_'

/-- Continuation character of the identifier grammar: letter, digit or
underscore. -/
def isIdentChar (c : Char) : Bool :=
  c.isAlpha || c.isDigit || c = '_'

/-- Python str.upper on a character list (ASCII semantics). -/
def pyUpper (l : List Char) : List Char :=
  l.map Char.toUpper

/-- Python str.lower on a character list (ASCII semantics). -/
def pyLower (l : List Char) : List Char :=
  l.map Char.toLower

/-- Python str.lower on a string. -/
def pyLowerS (s : String) : String :=
  String.mk (pyLower s.data)

/-- Python str.strip: remove leading and trailing whitespace. -/
def pyStrip (l : List Char) : List Char :=
  ((l.dropWhile isPySpace).reverse.dropWhile isPySpace).reverse

/-- Auxiliary recursion for whitespace collapsing; the flag records whether the
previous character was whitespace (so a run produces a single space). -/
def collapseAux : Bool → List Char → List Char
  | _, [] => []
  | prevSp, c :: rest =>
    if isPySpace c then
      if prevSp then collapseAux true rest else ' ' :: collapseAux true rest
    else
      c :: collapseAux false rest

/-- Embedding of re.sub applied to a whitespace-plus pattern with a single
space replacement: every maximal whitespace run becomes one space. -/
def collapseWs (l : List Char) : List Char :=
  collapseAux false l

/-- Normalised text used by the identifier extractor: upper-case, strip, then
collapse whitespace runs, exactly as in the source. -/
def normalizeExtract (sql : String) : List Char :=
  collapseWs (pyStrip (pyUpper sql.data))

/-- Normalised text used by the special-statement guard: upper-case and strip
only (the source does not collapse whitespace there). -/
def normalizeSpecial (sql : String) : List Char :=
  pyStrip (pyUpper sql.data)

/-! ### Scanner primitives

Each of the eight fixed lexical patterns of the source is compiled to a
function that attempts a match at the current position and returns the first
captured group together with the unconsumed remainder.  Word boundaries before
the first (word) character of a pattern are handled by the scanning driver,
which tracks whether the previous character was a word character. -/

/-- Match a literal keyword (given in upper case, as the scanned text is
upper-cased) at the head of the list, returning the remainder. -/
def stripLit : List Char → List Char → Option (List Char)
  | [], l => some l
  | _ :: _, [] => none
  | k :: ks, c :: cs => if c = k then stripLit ks cs else none

/-- Match a maximal identifier run (letter or underscore, then letters, digits
or underscores) at the head, returning the captured run and the remainder.
Because the run is maximal and word characters coincide with identifier
characters, a trailing word boundary after the run always holds. -/
def spanIdent : List Char → Option (List Char × List Char)
  | [] => none
  | c :: rest =>
    if isIdentStart c then
      some (c :: rest.takeWhile isIdentChar, rest.dropWhile isIdentChar)
    else none

/-- Match one-or-more whitespace characters greedily, returning the remainder. -/
def spaces1 : List Char → Option (List Char)
  | [] => none
  | c :: rest => if isPySpace c then some (rest.dropWhile isPySpace) else none

/-- Match zero-or-more whitespace characters greedily. -/
def spaces0 (l : List Char) : List Char :=
  l.dropWhile isPySpace

/-- Match the dotted tail of a qualified reference: optional spaces, a dot,
optional spaces, then a second identifier. -/
def dottedRest (l : List Char) : Option (List Char) :=
  match spaces0 l with
  | '.' :: r =>
    match spanIdent (spaces0 r) with
    | some (_, r2) => some r2
    | none => none
  | _ => none

/-- Pattern 1 of the source: a bare qualified reference, identifier dot
identifier; the first identifier is the captured database name. -/
def tryQualified (l : List Char) : Option (List Char × List Char) :=
  match spanIdent l with
  | some (g1, r) =>
    match dottedRest r with
    | some r2 => some (g1, r2)
    | none => none
  | none => none

/-- Shared shape of patterns 4 to 7: keyword, whitespace, then a qualified
reference whose first identifier is captured. -/
def tryKwQualified (kw : List Char) (l : List Char) : Option (List Char × List Char) :=
  match stripLit kw l with
  | some r =>
    match spaces1 r with
    | some r1 =>
      match spanIdent r1 with
      | some (g1, r2) =>
        match dottedRest r2 with
        | some r3 => some (g1, r3)
        | none => none
      | none => none
    | none => none
  | none => none

/-- Pattern 2 of the source: SHOW, optionally FULL, then TABLES FROM and a
captured identifier.  The optional FULL group commits when it matches, which
agrees with backtracking because TABLES can never match at a position where
FULL matched. -/
def tryShowTablesFrom (l : List Char) : Option (List Char × List Char) :=
  match stripLit "SHOW".data l with
  | some r =>
    match spaces1 r with
    | some r1 =>
      let afterOpt :=
        match stripLit "FULL".data r1 with
        | some rf =>
          match spaces1 rf with
          | some rf1 => rf1
          | none => r1
        | none => r1
      match stripLit "TABLES".data afterOpt with
      | some r2 =>
        match spaces1 r2 with
        | some r3 =>
          match stripLit "FROM".data r3 with
          | some r4 =>
            match spaces1 r4 with
            | some r5 =>
              match spanIdent r5 with
              | some (g, r6) => some (g, r6)
              | none => none
            | none => none
          | none => none
        | none => none
      | none => none
    | none => none
  | none => none

/-- Pattern 3 of the source: USE, whitespace, a captured identifier. -/
def tryUse (l : List Char) : Option (List Char × List Char) :=
  match stripLit "USE".data l with
  | some r =>
    match spaces1 r with
    | some r1 =>
      match spanIdent r1 with
      | some (g, r2) => some (g, r2)
      | none => none
    | none => none
  | none => none

/-- Pattern 8 of the source: DELETE, whitespace, FROM, whitespace, then a
qualified reference whose first identifier is captured. -/
def tryDeleteFrom (l : List Char) : Option (List Char × List Char) :=
  match stripLit "DELETE".data l with
  | some r =>
    match spaces1 r with
    | some r1 => tryKwQualified "FROM".data r1
    | none => none
  | none => none

/-- Non-overlapping left-to-right scanning driver, the embedding of re.finditer
for a single pattern: at each position where the previous character is not a
word character (the leading word boundary) the pattern is attempted; on a match
the captured group is recorded and scanning resumes after the match.  Every
pattern ends in an identifier character, so after a match the previous
character is a word character.  The fuel argument bounds the recursion by the
text length; each step consumes at least one character. -/
def scanPat (try1 : List Char → Option (List Char × List Char)) :
    Nat → Bool → List Char → List (List Char)
  | 0, _, _ => []
  | _ + 1, _, [] => []
  | n + 1, prevW, c :: rest =>
    match (if prevW then none else try1 (c :: rest)) with
    | some (g, r2) => g :: scanPat try1 n true r2
    | none => scanPat try1 n (isWordChar c) rest

/-- Run one pattern scanner over a whole text. -/
def runScan (try1 : List Char → Option (List Char × List Char)) (l : List Char) :
    List (List Char) :=
  scanPat try1 (l.length + 1) false l

/-- All captured groups of the eight cross-database patterns, in the source's
pattern order. -/
def crossDbMatches (l : List Char) : List (List Char) :=
  runScan tryQualified l ++
  runScan tryShowTablesFrom l ++
  runScan tryUse l ++
  runScan (tryKwQualified "FROM".data) l ++
  runScan (tryKwQualified "JOIN".data) l ++
  runScan (tryKwQualified "INTO".data) l ++
  runScan (tryKwQualified "UPDATE".data) l ++
  runScan tryDeleteFrom l

/-! ### The scope checker data model -/

/-- Embedding of the DatabaseAccessLevel enumeration. -/
inductive DatabaseAccessLevel where
  | strict
  | restricted
  | permissive
deriving DecidableEq, BEq, Repr

/-- Embedding of the DatabaseScopeChecker configuration state: the allowed
database (None modelled as none) and the access level. -/
structure DatabaseScopeChecker where
  allowed_database : Option String
  access_level : DatabaseAccessLevel
deriving DecidableEq, Repr

/-- Embedding of the SYSTEM_DATABASES constant. -/
def SYSTEM_DATABASES : List String :=
  ["information_schema", "mysql", "performance_schema", "sys"]

/-- Embedding of the is_enabled field computed in the constructor: an allowed
database is configured (is not None) and the level is not permissive. -/
def DatabaseScopeChecker.is_enabled (c : DatabaseScopeChecker) : Bool :=
  c.allowed_database.isSome && decide (c.access_level ≠ DatabaseAccessLevel.permissive)

/-- Full-anchored identifier-grammar test used by is_valid_database_name. -/
def identFull : List Char → Bool
  | [] => false
  | c :: rest => isIdentStart c && rest.all isIdentChar

/-- Embedding of is_valid_database_name: re.match of an anchored identifier
pattern.  The end anchor of Python also accepts a single trailing newline. -/
def is_valid_database_name (s : String) : Bool :=
  identFull s.data ||
    (match s.data.getLast? with
     | some '\n' => identFull s.data.dropLast
     | _ => false)

/-- One step of the set-accumulation loop of _extract_databases: lower-case the
captured group, keep it if it passes the identifier grammar, and insert it into
the accumulated set (modelled as a duplicate-free list in insertion order). -/
def addDb (acc : List String) (g : List Char) : List String :=
  let db := String.mk (pyLower g)
  if is_valid_database_name db then
    if acc.contains db then acc else acc ++ [db]
  else acc

/-- Embedding of _extract_databases: normalise the text, run the eight pattern
scanners, and accumulate the validated lower-cased first captured groups. -/
def extract_databases (sql : String) : List String :=
  (crossDbMatches (normalizeExtract sql)).foldl addDb []

/-- Embedding of _is_database_allowed: the name equals the configured allowed
database case-insensitively (an empty configured name is falsy in Python and
allows nothing), or the level is restricted and the name is a system database. -/
def DatabaseScopeChecker.is_database_allowed (c : DatabaseScopeChecker)
    (db_name : String) : Bool :=
  let dbl := pyLowerS db_name
  (match c.allowed_database with
   | some a => decide (a ≠ "") && dbl == pyLowerS a
   | none => false)
  || (decide (c.access_level = DatabaseAccessLevel.restricted) && SYSTEM_DATABASES.contains dbl)

/-! ### Special-statement guard -/

/-- Attempt of the catalog-enumeration pattern at one position: SHOW,
whitespace, DATABASES, then a word boundary. -/
def matchShowDatabasesAt (l : List Char) : Bool :=
  match stripLit "SHOW".data l with
  | some r =>
    match spaces1 r with
    | some r1 =>
      match stripLit "DATABASES".data r1 with
      | some r2 =>
        match r2 with
        | [] => true
        | d :: _ => !isWordChar d
      | none => false
    | none => false
  | none => false

/-- Search driver for the catalog-enumeration pattern. -/
def showDbAux : Bool → List Char → Bool
  | _, [] => false
  | prevW, c :: rest =>
    (!prevW && matchShowDatabasesAt (c :: rest)) || showDbAux (isWordChar c) rest

/-- Embedding of re.search of the SHOW DATABASES pattern. -/
def hasShowDatabases (l : List Char) : Bool :=
  showDbAux false l

/-- Attempt of the database-switch pattern at one position: USE followed by at
least one whitespace character. -/
def matchUseAt (l : List Char) : Bool :=
  match stripLit "USE".data l with
  | some r =>
    match r with
    | [] => false
    | d :: _ => isPySpace d
  | none => false

/-- Search driver for the database-switch pattern. -/
def useAux : Bool → List Char → Bool
  | _, [] => false
  | prevW, c :: rest =>
    (!prevW && matchUseAt (c :: rest)) || useAux (isWordChar c) rest

/-- Embedding of re.search of the USE pattern (word boundary, USE, whitespace). -/
def hasUseStmt (l : List Char) : Bool :=
  useAux false l

/-- Attempt of a literal system-table pattern at one position; when endB is
set a trailing word boundary is required (the pattern ends in a word
character), otherwise the pattern ends in a dot and no boundary applies. -/
def matchLitBAt (kw : List Char) (endB : Bool) (l : List Char) : Bool :=
  match stripLit kw l with
  | some r =>
    if endB then
      match r with
      | [] => true
      | d :: _ => !isWordChar d
    else true
  | none => false

/-- Search driver for a literal system-table pattern with a leading word
boundary. -/
def searchLitAux (kw : List Char) (endB : Bool) : Bool → List Char → Bool
  | _, [] => false
  | prevW, c :: rest =>
    (!prevW && matchLitBAt kw endB (c :: rest)) || searchLitAux kw endB (isWordChar c) rest

/-- Embedding of re.search of a literal system-table pattern.  The scanned
text is upper-cased, so the case-insensitive flag of the source amounts to
matching the upper-cased literal. -/
def searchLitB (kw : List Char) (endB : Bool) (l : List Char) : Bool :=
  searchLitAux kw endB false l

/-- Match results of the five system-table patterns of the source, in order. -/
def systemTableMatches (l : List Char) : List Bool :=
  [searchLitB "MYSQL.USER".data true l,
   searchLitB "MYSQL.DB".data true l,
   searchLitB "INFORMATION_SCHEMA.".data false l,
   searchLitB "PERFORMANCE_SCHEMA.".data false l,
   searchLitB "SYS.".data false l]

/-- Embedding of the system-table loop of _check_special_queries: on the first
matching pattern, in strict mode a single violation is emitted and scanning
stops; outside strict mode nothing is emitted and scanning continues. -/
def sysLoop (strict : Bool) : List Bool → List String
  | [] => []
  | b :: bs =>
    if b then
      if strict then ["严格模式下不允许访问系统表"] else sysLoop strict bs
    else sysLoop strict bs

/-- Embedding of _check_special_queries: catalog enumeration under strict mode,
any database switch, then the system-table loop, accumulated in order. -/
def DatabaseScopeChecker.check_special_queries (c : DatabaseScopeChecker)
    (sql : String) : List String :=
  let normalized := normalizeSpecial sql
  (if hasShowDatabases normalized && decide (c.access_level = DatabaseAccessLevel.strict) then
    ["严格模式下不允许执行 SHOW DATABASES"]
  else []) ++
  (if hasUseStmt normalized then ["不允许使用 USE 语句切换数据库"] else []) ++
  sysLoop (decide (c.access_level = DatabaseAccessLevel.strict)) (systemTableMatches normalized)

/-- Violations produced by the identifier loop of check_query: one message per
referenced database that is not allowed. -/
def DatabaseScopeChecker.dbViolations (c : DatabaseScopeChecker) (sql : String) :
    List String :=
  ((extract_databases sql).filter (fun db => !c.is_database_allowed db)).map
    (fun db => "不允许访问数据库: " ++ db)

/-- Embedding of check_query: the permissive fast path when the checker is not
enabled, otherwise the identifier violations followed by the special-statement
violations, with the allowed flag equal to the violation count being zero. -/
def DatabaseScopeChecker.check_query (c : DatabaseScopeChecker) (sql : String) :
    Bool × List String :=
  if c.is_enabled then
    let violations := c.dbViolations sql ++ c.check_special_queries sql
    (violations.length == 0, violations)
  else
    (true, [])

end MySqlScope

namespace PyRe

/-!
A small embedding of the part of Python's re module used by the redactor:
compiling a pattern string (which can fail, modelling re.error) and searching
for a match anywhere in a text, under the case-insensitive flag.  Matching is
by Brzozowski derivatives; the supported pattern grammar covers literals,
the dot, escapes, character classes, grouping, alternation and the three
quantifiers.  Pattern strings outside this grammar are reported as errors.
-/

/-- Regular-expression abstract syntax after compilation. -/
inductive Regex where
  | nil
  | eps
  | dot
  | cset (neg : Bool) (items : List (Char × Char))
  | seq (a b : Regex)
  | alt (a b : Regex)
  | star (a : Regex)
deriving DecidableEq, Repr

/-- Ranges of the digit escape class. -/
def dRanges : List (Char × Char) := [('0', '9')]

/-- Ranges of the word escape class. -/
def wRanges : List (Char × Char) := [('a', 'z'), ('A', 'Z'), ('0', '9'), ('_', '_')]

/-- Ranges of the whitespace escape class. -/
def sRanges : List (Char × Char) :=
  [(' ', ' '), ('\t', '\t'), ('\n', '\n'), ('\r', '\r'), ('\x0b', '\x0b'), ('\x0c', '\x0c')]

/-- Membership of a character in a list of inclusive ranges. -/
def inRanges (items : List (Char × Char)) (c : Char) : Bool :=
  items.any (fun p => p.1 ≤ c && c ≤ p.2)

/-- Class membership under the case-insensitive flag: the character matches if
it, its lower-case or its upper-case form lies in the ranges; negation is
applied afterwards. -/
def csetMatch (neg : Bool) (items : List (Char × Char)) (c : Char) : Bool :=
  let raw := inRanges items c || inRanges items c.toLower || inRanges items c.toUpper
  if neg then !raw else raw

/-- Smart sequence constructor keeping derivative terms small. -/
def mkSeq : Regex → Regex → Regex
  | Regex.nil, _ => Regex.nil
  | _, Regex.nil => Regex.nil
  | Regex.eps, b => b
  | a, Regex.eps => a
  | a, b => Regex.seq a b

/-- Smart alternation constructor keeping derivative terms small. -/
def mkAlt : Regex → Regex → Regex
  | Regex.nil, b => b
  | a, Regex.nil => a
  | a, b => Regex.alt a b

/-- Does the expression accept the empty word. -/
def nullable : Regex → Bool
  | Regex.nil => false
  | Regex.eps => true
  | Regex.dot => false
  | Regex.cset _ _ => false
  | Regex.seq a b => nullable a && nullable b
  | Regex.alt a b => nullable a || nullable b
  | Regex.star _ => true

/-- Brzozowski derivative with respect to one character; the dot does not
match a newline, as in the source's default flags. -/
def deriv (c : Char) : Regex → Regex
  | Regex.nil => Regex.nil
  | Regex.eps => Regex.nil
  | Regex.dot => if c = '\n' then Regex.nil else Regex.eps
  | Regex.cset neg items => if csetMatch neg items c then Regex.eps else Regex.nil
  | Regex.seq a b =>
    if nullable a then mkAlt (mkSeq (deriv c a) b) (deriv c b) else mkSeq (deriv c a) b
  | Regex.alt a b => mkAlt (deriv c a) (deriv c b)
  | Regex.star a => mkSeq (deriv c a) (Regex.star a)

/-- Does the expression match some prefix of the text. -/
def matchPre (r : Regex) : List Char → Bool
  | [] => nullable r
  | c :: rest => nullable r || matchPre (deriv c r) rest

/-- Does the expression match some substring of the text, the embedding of
re.search as a boolean. -/
def reSearchL (r : Regex) : List Char → Bool
  | [] => nullable r
  | c :: rest => matchPre r (c :: rest) || reSearchL r rest

/-- Escapes accepted inside a character class, as ranges; unknown letter or
digit escapes are rejected, as in the source's re module. -/
def clsEsc : Char → Option (List (Char × Char))
  | 'd' => some dRanges
  | 'w' => some wRanges
  | 's' => some sRanges
  | 'n' => some [('\n', '\n')]
  | 't' => some [('\t', '\t')]
  | 'r' => some [('\r', '\r')]
  | c => if c.isAlpha || c.isDigit then none else some [(c, c)]

/-- Escaped atoms outside a character class. -/
def escAtom (e : Char) : Option Regex :=
  if e = 'D' then some (Regex.cset true dRanges)
  else if e = 'W' then some (Regex.cset true wRanges)
  else if e = 'S' then some (Regex.cset true sRanges)
  else
    match clsEsc e with
    | some items => some (Regex.cset false items)
    | none => none

/-- Body of a character class after the optional negation and leading literal
bracket: items and ranges up to the closing bracket; an unterminated class is
an error. -/
def parseClsBody : Nat → List (Char × Char) → List Char → Except Unit (List (Char × Char) × List Char)
  | 0, _, _ => Except.error ()
  | _ + 1, _, [] => Except.error ()
  | n + 1, acc, c :: rest =>
    if c = ']' then Except.ok (acc, rest)
    else if c = '\\' then
      match rest with
      | [] => Except.error ()
      | e :: rest2 =>
        match clsEsc e with
        | some items => parseClsBody n (acc ++ items) rest2
        | none => Except.error ()
    else
      match rest with
      | '-' :: d :: rest2 =>
        if d = ']' then Except.ok (acc ++ [(c, c), ('-', '-')], rest2)
        else if d = '\\' then Except.error ()
        else if c ≤ d then parseClsBody n (acc ++ [(c, d)]) rest2
        else Except.error ()
      | _ => parseClsBody n (acc ++ [(c, c)]) rest

/-- Character class parser, entered after the opening bracket: optional
negation, then a leading closing bracket is a literal member. -/
def parseCls (fuel : Nat) (l : List Char) : Except Unit (Regex × List Char) :=
  let p := match l with
    | '^' :: r => (true, r)
    | _ => (false, l)
  match p.2 with
  | ']' :: r2 => (parseClsBody fuel [(']', ']')] r2).map (fun q => (Regex.cset p.1 q.1, q.2))
  | _ => (parseClsBody fuel [] p.2).map (fun q => (Regex.cset p.1 q.1, q.2))

/-- After a quantified piece, a lazy marker is accepted (language-equivalent
for boolean search) and a second quantifier is a multiple-repeat error. -/
def quantCheck (r : Regex) (rest : List Char) : Except Unit (Regex × List Char) :=
  match rest with
  | '?' :: rest2 => Except.ok (r, rest2)
  | '*' :: _ => Except.error ()
  | '+' :: _ => Except.error ()
  | _ => Except.ok (r, rest)

mutual

/-- Alternation level of the pattern grammar. -/
def parseAlt : Nat → List Char → Except Unit (Regex × List Char)
  | 0, _ => Except.error ()
  | n + 1, l =>
    match parseSeq n l with
    | Except.error e => Except.error e
    | Except.ok (r, rest) =>
      match rest with
      | '|' :: rest2 =>
        match parseAlt n rest2 with
        | Except.ok (r2, rest3) => Except.ok (Regex.alt r r2, rest3)
        | Except.error e => Except.error e
      | _ => Except.ok (r, rest)

/-- Concatenation level of the pattern grammar. -/
def parseSeq : Nat → List Char → Except Unit (Regex × List Char)
  | 0, _ => Except.error ()
  | n + 1, l =>
    match l with
    | [] => Except.ok (Regex.eps, [])
    | ')' :: _ => Except.ok (Regex.eps, l)
    | '|' :: _ => Except.ok (Regex.eps, l)
    | _ =>
      match parsePiece n l with
      | Except.error e => Except.error e
      | Except.ok (r1, rest) =>
        match parseSeq n rest with
        | Except.ok (r2, rest2) => Except.ok (mkSeq r1 r2, rest2)
        | Except.error e => Except.error e

/-- A piece is an atom with an optional quantifier; a quantifier with nothing
to repeat is an error, as in the source's re module. -/
def parsePiece : Nat → List Char → Except Unit (Regex × List Char)
  | 0, _ => Except.error ()
  | n + 1, l =>
    match parseAtom n l with
    | Except.error e => Except.error e
    | Except.ok (r, rest) =>
      match rest with
      | '*' :: rest2 => quantCheck (Regex.star r) rest2
      | '+' :: rest2 => quantCheck (Regex.seq r (Regex.star r)) rest2
      | '?' :: rest2 => quantCheck (Regex.alt r Regex.eps) rest2
      | _ => Except.ok (r, rest)

/-- Atoms: groups, classes, the dot, escapes and literal characters.  An
unterminated group is an error, matching re.error on such patterns. -/
def parseAtom : Nat → List Char → Except Unit (Regex × List Char)
  | 0, _ => Except.error ()
  | n + 1, l =>
    match l with
    | [] => Except.error ()
    | c :: rest =>
      if c = '(' then
        match parseAlt n rest with
        | Except.ok (r, rest2) =>
          match rest2 with
          | ')' :: rest3 => Except.ok (r, rest3)
          | _ => Except.error ()
        | Except.error e => Except.error e
      else if c = '[' then parseCls n rest
      else if c = '.' then Except.ok (Regex.dot, rest)
      else if c = '\\' then
        match rest with
        | [] => Except.error ()
        | e :: rest2 =>
          match escAtom e with
          | some r => Except.ok (r, rest2)
          | none => Except.error ()
      else if c = '*' || c = '+' || c = '?' || c = '^' || c = '$' || c = '{' || c = ')' || c = '|' then
        Except.error ()
      else Except.ok (Regex.cset false [(c, c)], rest)

end

/-- Compilation of a pattern string, the embedding of re.compile with errors
collapsed to a unit value; the fuel is generous for the pattern length. -/
def parseRe (p : String) : Except Unit Regex :=
  match parseAlt (4 * p.length + 16) p.data with
  | Except.ok (r, []) => Except.ok r
  | Except.ok (_, _ :: _) => Except.error ()
  | Except.error e => Except.error e

/-- Embedding of re.search under the case-insensitive flag, as a boolean, with
compilation errors propagated. -/
def reSearchIC (p : String) (s : String) : Except Unit Bool :=
  match parseRe p with
  | Except.ok r => Except.ok (reSearchL r s.data)
  | Except.error e => Except.error e

end PyRe

namespace MySqlInfo

open MySqlScope

/-!
Embedding of the sensitive-information redactor of mysql_info_tool.py.  A
result row is an ordered association list from column names to string values;
Python dict membership, lookup and in-place update of an existing key are the
corresponding first-occurrence operations.  The generator expression testing
the sensitive patterns raises when a pattern fails to compile, which aborts
the whole call; this is modelled with an Except value.
-/

/-- A result row: an ordered mapping from column-name strings to values. -/
abbrev Row := List (String × String)

/-- Python key membership on a row. -/
def Row.hasKey (r : Row) (k : String) : Bool :=
  r.any (fun p => p.1 == k)

/-- Python key lookup on a row (first occurrence). -/
def Row.getVal? (r : Row) (k : String) : Option String :=
  (r.find? (fun p => p.1 == k)).map Prod.snd

/-- Python in-place update of an existing key, preserving entry order. -/
def Row.setVal : Row → String → String → Row
  | [], _, _ => []
  | (k0, v0) :: rest, k, v =>
    if k0 == k then (k0, v) :: rest else (k0, v0) :: Row.setVal rest k v

/-- Embedding of the built-in default sensitive pattern list (the environment
variable extension is absent in the default configuration). -/
def SENSITIVE_VARIABLE_PATTERNS : List String :=
  ["password", "auth", "credential", "key", "secret", "private",
   "host", "path", "directory", "ssl", "iptables", "filter"]

/-- Embedding of the ordered priority list of candidate name-column spellings. -/
def VARIABLE_NAME_FIELDS : List String :=
  ["Variable_name", "variable_name", "name", "Name", "key", "Key", "Setting"]

/-- Embedding of the ordered priority list of candidate value-column spellings. -/
def VALUE_FIELDS : List String :=
  ["Value", "value", "variable_value", "val", "setting", "Setting_Value"]

/-- The masking sentinel written over sensitive values. -/
def HIDDEN : String := "*** HIDDEN ***"

/-- First recognized name field of a row, in priority order. -/
def findNameField (r : Row) : Option String :=
  VARIABLE_NAME_FIELDS.find? (fun f => r.hasKey f)

/-- Embedding of the short-circuiting any-generator over the patterns: the
first match ends the scan; a compilation failure raises. -/
def anyMatch : List String → String → Except Unit Bool
  | [], _ => Except.ok false
  | p :: ps, s =>
    match PyRe.reSearchIC p s with
    | Except.error e => Except.error e
    | Except.ok true => Except.ok true
    | Except.ok false => anyMatch ps s

/-- Embedding of the value-masking loop: every present value field of the row
is overwritten with the sentinel, in the declared priority order. -/
def maskValues (r : Row) : Row :=
  VALUE_FIELDS.foldl (fun acc f => if acc.hasKey f then acc.setVal f HIDDEN else acc) r

/-- Effective pattern list: a falsy (empty) argument selects the built-in
default list. -/
def effPatterns (ps : List String) : List String :=
  if ps.isEmpty then SENSITIVE_VARIABLE_PATTERNS else ps

/-- The row loop of filter_sensitive_info: rows are processed in order; a row
without a recognized name field passes through; otherwise its lower-cased name
value is tested against the patterns and a sensitive row has its value fields
masked.  A pattern-compilation failure aborts the whole call. -/
def filterRows (ps : List String) : List Row → Except Unit (List Row)
  | [] => Except.ok []
  | item :: rest =>
    match findNameField item with
    | none => (filterRows ps rest).map (fun t => item :: t)
    | some nf =>
      match anyMatch ps (pyLowerS ((item.getVal? nf).getD "")) with
      | Except.error e => Except.error e
      | Except.ok true => (filterRows ps rest).map (fun t => maskValues item :: t)
      | Except.ok false => (filterRows ps rest).map (fun t => item :: t)

/-- Embedding of filter_sensitive_info. -/
def filter_sensitive_info (results : List Row) (filter_patterns : List String) :
    Except Unit (List Row) :=
  filterRows (effPatterns filter_patterns) results

/-- Specification relation between an input row and the corresponding output
row, used to state the frame property: a row without a recognized name field,
or whose name matches no pattern, is unchanged; a sensitive row keeps its
column names in order and has exactly its present value fields overwritten
with the sentinel. -/
def RowRel (ps : List String) (r o : Row) : Prop :=
  (findNameField r = none → o = r) ∧
  ∀ nf, findNameField r = some nf →
    (anyMatch ps (pyLowerS ((r.getVal? nf).getD "")) = Except.ok false → o = r) ∧
    (anyMatch ps (pyLowerS ((r.getVal? nf).getD "")) = Except.ok true →
      o.map Prod.fst = r.map Prod.fst ∧
      ∀ k, o.getVal? k =
        if (VALUE_FIELDS.contains k && r.hasKey k) = true then some HIDDEN
        else r.getVal? k)

end MySqlInfo

namespace MySqlScope

/-! ### Helper lemmas about the scope checker -/

/-- A checker that is not enabled allows everything with no violations. -/
lemma check_query_of_not_enabled (c : DatabaseScopeChecker) (s : String)
    (h : c.is_enabled = false) : c.check_query s = (true, []) := by
  simp [DatabaseScopeChecker.check_query, h]

/-- When the checker is enabled, the result components of check_query. -/
lemma check_query_of_enabled (c : DatabaseScopeChecker) (s : String)
    (h : c.is_enabled = true) :
    c.check_query s =
      ((c.dbViolations s ++ c.check_special_queries s).length == 0,
        c.dbViolations s ++ c.check_special_queries s) := by
  simp [DatabaseScopeChecker.check_query, h]

/-- Any violation in the accumulated list forces a denial. -/
lemma check_query_fst_false_of_mem (c : DatabaseScopeChecker) (s : String)
    (hen : c.is_enabled = true) (v : String)
    (hv : v ∈ c.dbViolations s ++ c.check_special_queries s) :
    (c.check_query s).1 = false := by
  rw [check_query_of_enabled c s hen]
  have hne : c.dbViolations s ++ c.check_special_queries s ≠ [] :=
    List.ne_nil_of_mem hv
  have hlen : (c.dbViolations s ++ c.check_special_queries s).length ≠ 0 := by
    simpa [List.length_eq_zero] using hne
  simpa using hlen

/-- A detected database-switch statement contributes its violation to the
special-statement guard's output. -/
lemma useMsg_mem_special (c : DatabaseScopeChecker) (s : String)
    (h : hasUseStmt (normalizeSpecial s) = true) :
    "不允许使用 USE 语句切换数据库" ∈ c.check_special_queries s := by
  unfold DatabaseScopeChecker.check_special_queries
  simp [h]

/-- The system-table loop yields either no violation or exactly the single
consolidated violation. -/
lemma sysLoop_eq_nil_or (strict : Bool) (bs : List Bool) :
    sysLoop strict bs = [] ∨ sysLoop strict bs = ["严格模式下不允许访问系统表"] := by
  induction bs with
  | nil => exact Or.inl rfl
  | cons b bs ih =>
    cases b <;> cases strict <;> simp only [sysLoop] at * <;> simp_all

/-- A database-denial message is never the system-table message: their first
characters differ. -/
lemma dbViolation_ne_sysMsg (db : String) :
    "不允许访问数据库: " ++ db ≠ "严格模式下不允许访问系统表" := by
  intro h
  have h2 : '不' :: ("允许访问数据库: ".data ++ db.data) =
      '严' :: "格模式下不允许访问系统表".data := by
    have h3 := congrArg String.data h
    rw [String.data_append] at h3
    exact h3
  injection h2 with h4 _
  exact absurd h4 (by decide)

/-- The special-statement guard emits at most one system-table violation. -/
lemma count_sysMsg_special_le (c : DatabaseScopeChecker) (s : String) :
    (c.check_special_queries s).count "严格模式下不允许访问系统表" ≤ 1 := by
  simp only [DatabaseScopeChecker.check_special_queries]
  rcases sysLoop_eq_nil_or (decide (c.access_level = DatabaseAccessLevel.strict))
      (systemTableMatches (normalizeSpecial s)) with h | h <;>
    rw [h] <;> split_ifs <;> decide

/-- The identifier loop never emits the system-table message. -/
lemma count_sysMsg_dbViolations (c : DatabaseScopeChecker) (s : String) :
    (c.dbViolations s).count "严格模式下不允许访问系统表" = 0 := by
  rw [List.count_eq_zero]
  intro hmem
  unfold DatabaseScopeChecker.dbViolations at hmem
  rw [List.mem_map] at hmem
  obtain ⟨db, _, hdb⟩ := hmem
  exact dbViolation_ne_sysMsg db hdb

/-! ### Concrete policies used by the claims -/

/-- The policy with allowed database shop under the strict level. -/
def polStrictShop : DatabaseScopeChecker :=
  DatabaseScopeChecker.mk (some "shop") DatabaseAccessLevel.strict

/-- The policy with allowed database shop under the restricted level. -/
def polRestrictedShop : DatabaseScopeChecker :=
  DatabaseScopeChecker.mk (some "shop") DatabaseAccessLevel.restricted

/-! ### Claim theorems for the scope checker -/

/-- C1: with allowedDatabase shop and the strict level, a query against
shop.orders is allowed with no violations, and a query against other.orders is
denied with a single violation message that names the database other. -/
theorem claim_c1_scope_allow_deny :
    polStrictShop.check_query "SELECT * FROM shop.orders" = (true, []) ∧
    (polStrictShop.check_query "SELECT * FROM other.orders").1 = false ∧
    (polStrictShop.check_query "SELECT * FROM other.orders").2 =
      ["不允许访问数据库: other"] ∧
    "other".data <:+: ("不允许访问数据库: other" : String).data := by
  refine ⟨rfl, rfl, rfl, ?_⟩
  decide

/-- C2: a checker whose level is permissive or whose allowed database is
absent is not enabled, and check_query returns exactly an allow with the empty
violation list on every SQL string. -/
theorem claim_c2_permissive_fast_path (c : DatabaseScopeChecker) (s : String)
    (h : c.access_level = DatabaseAccessLevel.permissive ∨ c.allowed_database = none) :
    c.check_query s = (true, []) := by
  apply check_query_of_not_enabled
  rcases h with h | h <;> simp [DatabaseScopeChecker.is_enabled, h]

/-- Witness for C2 at a concrete disabled policy and query. -/
theorem claim_c2_witness :
    ((DatabaseScopeChecker.mk none DatabaseAccessLevel.strict).access_level =
        DatabaseAccessLevel.permissive ∨
      (DatabaseScopeChecker.mk none DatabaseAccessLevel.strict).allowed_database = none) ∧
    (DatabaseScopeChecker.mk none DatabaseAccessLevel.strict).check_query
      "SELECT * FROM other.orders" = (true, []) :=
  ⟨Or.inr rfl,
    claim_c2_permissive_fast_path (DatabaseScopeChecker.mk none DatabaseAccessLevel.strict)
      "SELECT * FROM other.orders" (Or.inr rfl)⟩

/-- C3: under every enabled policy, a statement in which the database-switch
pattern is detected is denied, with the database-switch violation in the
list. -/
theorem claim_c3_use_always_denied (c : DatabaseScopeChecker) (s : String)
    (hen : c.is_enabled = true) (h : hasUseStmt (normalizeSpecial s) = true) :
    (c.check_query s).1 = false ∧
    "不允许使用 USE 语句切换数据库" ∈ (c.check_query s).2 := by
  have hmem : "不允许使用 USE 语句切换数据库" ∈
      c.dbViolations s ++ c.check_special_queries s :=
    List.mem_append_right _ (useMsg_mem_special c s h)
  refine ⟨check_query_fst_false_of_mem c s hen _ hmem, ?_⟩
  rw [check_query_of_enabled c s hen]
  exact hmem

/-- Witness for C3: USE shop is denied even though shop is the allowed
database of the strict policy. -/
theorem claim_c3_witness :
    polStrictShop.is_enabled = true ∧
    hasUseStmt (normalizeSpecial "USE shop") = true ∧
    (polStrictShop.check_query "USE shop").1 = false ∧
    "不允许使用 USE 语句切换数据库" ∈ (polStrictShop.check_query "USE shop").2 := by
  have h := claim_c3_use_always_denied polStrictShop "USE shop" rfl rfl
  exact ⟨rfl, rfl, h.1, h.2⟩

/-- C4: SHOW DATABASES is denied with the catalog-enumeration violation under
the strict level and allowed without violations under the restricted level. -/
theorem claim_c4_show_databases :
    polStrictShop.check_query "SHOW DATABASES" =
      (false, ["严格模式下不允许执行 SHOW DATABASES"]) ∧
    polRestrictedShop.check_query "SHOW DATABASES" = (true, []) :=
  ⟨rfl, rfl⟩

/-- C5: a query referencing the access-control system database is allowed
under the restricted level with allowed database shop, and the identical query
is denied under the strict level both by the identifier check and by the
system-table rule. -/
theorem claim_c5_system_db_levels :
    polRestrictedShop.check_query "SELECT * FROM mysql.user" = (true, []) ∧
    (polStrictShop.check_query "SELECT * FROM mysql.user").1 = false ∧
    "不允许访问数据库: mysql" ∈ (polStrictShop.check_query "SELECT * FROM mysql.user").2 ∧
    "严格模式下不允许访问系统表" ∈ (polStrictShop.check_query "SELECT * FROM mysql.user").2 := by
  refine ⟨rfl, rfl, ?_, ?_⟩ <;> decide

/-- C6: for every SQL string and policy, the allowed flag is true exactly when
the violation list is empty. -/
theorem claim_c6_allowed_iff_no_violations (c : DatabaseScopeChecker) (s : String) :
    (c.check_query s).1 = true ↔ (c.check_query s).2 = [] := by
  by_cases h : c.is_enabled
  · rw [check_query_of_enabled c s h]
    simp [List.length_eq_zero]
  · rw [check_query_of_not_enabled c s (by simpa using h)]
    simp

/-- C7: under a strict policy the violation list of check_query contains the
consolidated system-table message at most once, whatever the SQL text. -/
theorem claim_c7_single_system_violation (c : DatabaseScopeChecker) (s : String)
    (_h : c.access_level = DatabaseAccessLevel.strict) :
    ((c.check_query s).2).count "严格模式下不允许访问系统表" ≤ 1 := by
  by_cases hen : c.is_enabled
  · rw [check_query_of_enabled c s hen]
    simp only [List.count_append, count_sysMsg_dbViolations, Nat.zero_add]
    exact count_sysMsg_special_le c s
  · rw [check_query_of_not_enabled c s (by simpa using hen)]
    simp

/-- Witness for C7 at a strict policy and a statement referencing two distinct
system tables. -/
theorem claim_c7_witness :
    ((polStrictShop.check_query
        "SELECT * FROM mysql.user JOIN information_schema.tables t").2).count
      "严格模式下不允许访问系统表" ≤ 1 :=
  claim_c7_single_system_violation polStrictShop
    "SELECT * FROM mysql.user JOIN information_schema.tables t" rfl

/-- C10 counterexample: the enabled strict policy allows a string whose
upper-cased text contains the word USE followed by whitespace, because the
trailing whitespace is stripped before the special-statement scan. -/
theorem claim_c10_counterexample :
    polStrictShop.is_enabled = true ∧
    hasUseStmt (pyUpper ("FOO USE " : String).data) = true ∧
    (polStrictShop.check_query "FOO USE ").1 = true :=
  ⟨rfl, rfl, rfl⟩

/-- C10 (amended): under every enabled policy, a SQL string whose upper-cased,
whitespace-stripped text contains the word USE followed by whitespace is
denied. -/
theorem claim_c10_use_denies (c : DatabaseScopeChecker) (s : String)
    (hen : c.is_enabled = true) (h : hasUseStmt (normalizeSpecial s) = true) :
    (c.check_query s).1 = false :=
  check_query_fst_false_of_mem c s hen _
    (List.mem_append_right _ (useMsg_mem_special c s h))

/-- Witness for the amended C10: a SELECT against the allowed database whose
string literal contains USE followed by a space is denied. -/
theorem claim_c10_witness :
    polStrictShop.is_enabled = true ∧
    hasUseStmt (normalizeSpecial "SELECT * FROM shop.t WHERE c='USE it'") = true ∧
    (polStrictShop.check_query "SELECT * FROM shop.t WHERE c='USE it'").1 = false :=
  ⟨rfl, rfl,
    claim_c10_use_denies polStrictShop "SELECT * FROM shop.t WHERE c='USE it'" rfl rfl⟩

end MySqlScope

namespace MySqlInfo

open MySqlScope

/-! ### Helper lemmas about the redactor -/

/-- Updating an existing key does not change the sequence of column names. -/
lemma setVal_map_fst (r : Row) (k v : String) :
    (r.setVal k v).map Prod.fst = r.map Prod.fst := by
  induction r with
  | nil => rfl
  | cons p rest ih =>
    obtain ⟨k0, v0⟩ := p
    by_cases h : k0 = k <;> simp [Row.setVal, h, ih]

/-- Updating one key does not change key membership. -/
lemma hasKey_setVal (r : Row) (k v k2 : String) :
    (r.setVal k v).hasKey k2 = r.hasKey k2 := by
  induction r with
  | nil => rfl
  | cons p rest ih =>
    obtain ⟨k0, v0⟩ := p
    simp only [Row.hasKey] at ih
    by_cases h : k0 = k <;> simp [Row.setVal, Row.hasKey, h, ih]

/-- Lookup after updating an existing key: the updated key reads the new value
when it was present, every other key is unchanged. -/
lemma getVal?_setVal (r : Row) (k v k2 : String) :
    (r.setVal k v).getVal? k2 =
      if (k2 == k && r.hasKey k) = true then some v else r.getVal? k2 := by
  induction r with
  | nil => simp [Row.setVal, Row.getVal?, Row.hasKey]
  | cons p rest ih =>
    obtain ⟨k0, v0⟩ := p
    simp only [Row.getVal?, Row.hasKey] at ih
    by_cases h0 : k0 = k
    · subst h0
      by_cases h2 : k0 = k2
      · subst h2
        simp [Row.setVal, Row.getVal?, Row.hasKey, List.find?_cons]
      · simp [Row.setVal, Row.getVal?, Row.hasKey, List.find?_cons, h2, Ne.symm h2]
    · have e0 : (k0 == k) = false := by simp [h0]
      by_cases h2 : k0 = k2
      · subst h2
        simp [Row.setVal, Row.getVal?, Row.hasKey, List.find?_cons, h0, ih]
      · have e2 : (k0 == k2) = false := by simp [h2]
        have hcond : ((k0 == k) || rest.any fun p => p.1 == k) = rest.any fun p => p.1 == k := by
          rw [e0]
          simp
        simp only [Row.setVal, Row.getVal?, Row.hasKey, List.find?_cons, List.any_cons, e0, e2,
          Bool.false_eq_true, if_false, ih]
        rw [Bool.false_or]

/-- The masking fold over any field list preserves the sequence of column
names. -/
lemma maskFold_map_fst (fs : List String) (r : Row) :
    (fs.foldl (fun acc f => if acc.hasKey f then acc.setVal f HIDDEN else acc) r).map
        Prod.fst = r.map Prod.fst := by
  induction fs generalizing r with
  | nil => rfl
  | cons f fs ih =>
    simp only [List.foldl_cons]
    by_cases h : r.hasKey f <;> simp [h, ih, setVal_map_fst]

/-- The masking fold preserves key membership. -/
lemma maskFold_hasKey (fs : List String) (r : Row) (k : String) :
    (fs.foldl (fun acc f => if acc.hasKey f then acc.setVal f HIDDEN else acc) r).hasKey k =
      r.hasKey k := by
  induction fs generalizing r with
  | nil => rfl
  | cons f fs ih =>
    simp only [List.foldl_cons]
    by_cases h : r.hasKey f <;> simp [h, ih, hasKey_setVal]

/-- Lookup after the masking fold: a key reads the sentinel exactly when it is
in the field list and present in the row; every other key is unchanged. -/
lemma maskFold_getVal? (fs : List String) (r : Row) (k : String) :
    (fs.foldl (fun acc f => if acc.hasKey f then acc.setVal f HIDDEN else acc) r).getVal? k =
      if (fs.contains k && r.hasKey k) = true then some HIDDEN else r.getVal? k := by
  induction fs generalizing r with
  | nil => simp
  | cons f fs ih
  =>
    simp only [List.foldl_cons]
    by_cases hf : r.hasKey f
    · rw [if_pos hf, ih]
      by_cases hmem : k ∈ fs
      · by_cases hk : r.hasKey k
        · simp [hmem, hk, hasKey_setVal]
        · have hkf : k ≠ f := by
            intro he
            rw [he] at hk
            exact hk hf
          simp [hmem, hk, hkf, hasKey_setVal, getVal?_setVal]
      · by_cases hkf : k = f
        · subst hkf
          simp [hf, hmem, hasKey_setVal, getVal?_setVal]
        · simp [hf, hmem, hasKey_setVal, getVal?_setVal, hkf]
    · rw [if_neg hf, ih]
      by_cases hmem : k ∈ fs
      · by_cases hk : r.hasKey k <;> simp [hmem, hk]
      · by_cases hkf : k = f
        · subst hkf
          simp [hf, hmem]
        · simp [hf, hmem, hkf]

/-- Column names are preserved by maskValues. -/
lemma maskValues_map_fst (r : Row) :
    (maskValues r).map Prod.fst = r.map Prod.fst :=
  maskFold_map_fst VALUE_FIELDS r

/-- Lookup specification of maskValues. -/
lemma maskValues_getVal? (r : Row) (k : String) :
    (maskValues r).getVal? k =
      if (VALUE_FIELDS.contains k && r.hasKey k) = true then some HIDDEN
      else r.getVal? k :=
  maskFold_getVal? VALUE_FIELDS r k

/-- When every pattern compiles, the short-circuiting scan returns a boolean
instead of raising. -/
lemma anyMatch_isOk (ps : List String) (s : String)
    (h : ∀ p ∈ ps, (PyRe.parseRe p).isOk = true) :
    ∃ b, anyMatch ps s = Except.ok b := by
  induction ps with
  | nil => exact ⟨false, rfl⟩
  | cons p ps ih =>
    have hp := h p (by simp)
    obtain ⟨r, hr⟩ : ∃ r, PyRe.parseRe p = Except.ok r := by
      cases hrp : PyRe.parseRe p with
      | error e => rw [hrp] at hp; simp [Except.isOk, Except.toBool] at hp
      | ok r => exact ⟨r, rfl⟩
    obtain ⟨b, hb⟩ := ih (fun q hq => h q (by simp [hq]))
    by_cases hm : PyRe.reSearchL r s.data
    · exact ⟨true, by simp [anyMatch, PyRe.reSearchIC, hr, hm]⟩
    · exact ⟨b, by simp [anyMatch, PyRe.reSearchIC, hr, hm, hb]⟩

/-- The built-in default pattern list compiles. -/
lemma defaults_ok : ∀ p ∈ SENSITIVE_VARIABLE_PATTERNS, (PyRe.parseRe p).isOk = true := by
  decide

/-- The effective pattern list compiles whenever the given one does. -/
lemma effPatterns_ok (ps : List String)
    (h : ∀ p ∈ ps, (PyRe.parseRe p).isOk = true) :
    ∀ p ∈ effPatterns ps, (PyRe.parseRe p).isOk = true := by
  unfold effPatterns
  by_cases hps : ps.isEmpty
  · simpa [hps] using defaults_ok
  · simpa [hps] using h

/-! ### Claim theorems for the redactor -/

/-- C8 counterexample: with a malformed pattern in the list, the call raises
instead of returning a row list, so the universally quantified frame claim
fails as stated. -/
theorem claim_c8_counterexample :
    (filter_sensitive_info [[("Variable_name", "x"), ("Value", "y")]] ["("]).isOk = false := by
  decide

/-- C8 (amended): for every row list and every pattern list whose members all
compile, the call returns a row list of the same length in which each row is
related to its input row by the frame relation: rows without a recognized name
field, and rows whose name matches no pattern, are unchanged; a sensitive row
keeps its column names and has exactly its present value fields overwritten
with the sentinel. -/
theorem claim_c8_frame (rows : List Row) (ps : List String)
    (h : ∀ p ∈ ps, (PyRe.parseRe p).isOk = true) :
    ∃ out, filter_sensitive_info rows ps = Except.ok out ∧
      out.length = rows.length ∧
      List.Forall₂ (RowRel (effPatterns ps)) rows out := by
  have he := effPatterns_ok ps h
  unfold filter_sensitive_info
  induction rows with
  | nil => exact ⟨[], rfl, rfl, List.Forall₂.nil⟩
  | cons r rest ih =>
    obtain ⟨out, ho, hl, hf⟩ := ih
    cases hnf : findNameField r with
    | none =>
      refine ⟨r :: out, ?_, by simp [hl], ?_⟩
      · unfold filterRows
        rw [hnf]
        dsimp only
        rw [ho]
        rfl
      · refine List.Forall₂.cons ⟨fun _ => rfl, ?_⟩ hf
        intro nf hnf2
        rw [hnf] at hnf2
        exact absurd hnf2 (by simp)
    | some nf =>
      obtain ⟨b, hb⟩ := anyMatch_isOk (effPatterns ps) (pyLowerS ((r.getVal? nf).getD "")) he
      cases b with
      | false =>
        refine ⟨r :: out, ?_, by simp [hl], ?_⟩
        · unfold filterRows
          rw [hnf]
          dsimp only
          rw [hb]
          dsimp only
          rw [ho]
          rfl
        · refine List.Forall₂.cons ⟨fun hc => absurd (hnf ▸ hc) (by simp), ?_⟩ hf
          intro nf2 hnf2
          rw [hnf] at hnf2
          cases hnf2
          refine ⟨fun _ => rfl, fun hc => ?_⟩
          rw [hb] at hc
          exact absurd hc (by simp)
      | true =>
        refine ⟨maskValues r :: out, ?_, by simp [hl], ?_⟩
        · unfold filterRows
          rw [hnf]
          dsimp only
          rw [hb]
          dsimp only
          rw [ho]
          rfl
        · refine List.Forall₂.cons ⟨fun hc => absurd (hnf ▸ hc) (by simp), ?_⟩ hf
          intro nf2 hnf2
          rw [hnf] at hnf2
          cases hnf2
          refine ⟨fun hc => ?_, fun _ => ⟨maskValues_map_fst r, fun k => maskValues_getVal? r k⟩⟩
          rw [hb] at hc
          exact absurd hc (by simp)

/-- Rows used by the C8 witness. -/
def c8rows : List Row := [[("Variable_name", "ssl_ca"), ("Value", "/etc/ssl/ca.pem")]]

/-- Witness for the amended C8 at a concrete sensitive row and a concrete
well-formed pattern list. -/
theorem claim_c8_witness :
    ∃ out, filter_sensitive_info c8rows ["ssl"] = Except.ok out ∧
      out.length = c8rows.length ∧
      List.Forall₂ (RowRel (effPatterns ["ssl"])) c8rows out :=
  claim_c8_frame c8rows ["ssl"] (by decide)

/-- C9 counterexample: a malformed pattern that a row's name scan reaches
makes the whole call raise, instead of returning that row unmodified. -/
theorem claim_c9_counterexample :
    (filter_sensitive_info [[("name", "x")]] ["("]).isOk = false := by
  decide

/-- Mapping over an Except value preserves exactly the error outcomes. -/
lemma exceptMap_eq_error {α β : Type} (f : α → β) (x : Except Unit α) :
    Except.map f x = Except.error () ↔ x = Except.error () := by
  cases x with
  | error e => cases e; simp [Except.map]
  | ok a => simp [Except.map]

/-- Extending the row list by a row whose pattern scan does not raise neither
adds nor removes failure witnesses. -/
lemma errWitness_cons (ps : List String) (r : Row) (rest : List Row)
    (hr : ∀ nf2, findNameField r = some nf2 →
      anyMatch ps (pyLowerS ((r.getVal? nf2).getD "")) ≠ Except.error ()) :
    (∃ r2 ∈ r :: rest, ∃ nf2, findNameField r2 = some nf2 ∧
        anyMatch ps (pyLowerS ((r2.getVal? nf2).getD "")) = Except.error ()) ↔
      ∃ r2 ∈ rest, ∃ nf2, findNameField r2 = some nf2 ∧
        anyMatch ps (pyLowerS ((r2.getVal? nf2).getD "")) = Except.error () := by
  constructor
  · rintro ⟨r2, hr2, nf2, hnf2, herr⟩
    rcases List.mem_cons.mp hr2 with heq | hmem
    · subst heq
      exact absurd herr (hr nf2 hnf2)
    · exact ⟨r2, hmem, nf2, hnf2, herr⟩
  · rintro ⟨r2, hmem, nf2, hnf2, herr⟩
    exact ⟨r2, List.mem_cons_of_mem r hmem, nf2, hnf2, herr⟩

/-- The row loop raises exactly when some row has a recognized name field
whose lower-cased value's short-circuiting scan over the patterns raises. -/
lemma filterRows_error_iff (ps : List String) (rows : List Row) :
    filterRows ps rows = Except.error () ↔
      ∃ r ∈ rows, ∃ nf, findNameField r = some nf ∧
        anyMatch ps (pyLowerS ((r.getVal? nf).getD "")) = Except.error () := by
  induction rows with
  | nil => simp [filterRows]
  | cons r rest ih =>
    unfold filterRows
    cases hnf : findNameField r with
    | none =>
      dsimp only
      rw [exceptMap_eq_error, ih]
      refine (errWitness_cons ps r rest ?_).symm
      intro nf2 hnf2
      rw [hnf] at hnf2
      cases hnf2
    | some nf =>
      dsimp only
      cases hm : anyMatch ps (pyLowerS ((r.getVal? nf).getD "")) with
      | error e =>
        cases e
        dsimp only
        exact ⟨fun _ => ⟨r, List.mem_cons_self r rest, nf, hnf, hm⟩, fun _ => rfl⟩
      | ok b =>
        have hr : ∀ nf2, findNameField r = some nf2 →
            anyMatch ps (pyLowerS ((r.getVal? nf2).getD "")) ≠ Except.error () := by
          intro nf2 hnf2 hcontra
          rw [hnf] at hnf2
          injection hnf2 with he
          subst he
          rw [hm] at hcontra
          exact Except.noConfusion hcontra
        cases b <;> dsimp only <;> rw [exceptMap_eq_error, ih] <;>
          exact (errWitness_cons ps r rest hr).symm

/-- C9 (amended): the call raises exactly when some row has a recognized name
field whose lower-cased value's scan over the effective patterns raises, i.e.
the scan reaches a malformed pattern without an earlier pattern matching
first; such a raise aborts the whole call instead of returning the row
unmodified, and when no row's scan raises the call returns normally. -/
theorem claim_c9_failure_iff (rows : List Row) (ps : List String) :
    filter_sensitive_info rows ps = Except.error () ↔
      ∃ r ∈ rows, ∃ nf, findNameField r = some nf ∧
        anyMatch (effPatterns ps) (pyLowerS ((r.getVal? nf).getD "")) = Except.error () :=
  filterRows_error_iff (effPatterns ps) rows

end MySqlInfo
